import Mathlib

/-!
Shallow embedding of the function `decompress_lz77` from `analyze_lz77.py`,
a GBA-style LZ77 decompressor.  The source operates on Python `bytes`
(`data`) and a `bytearray` output buffer (`out`):

* `header = struct.unpack('<I', data[off:off+4])[0]; size = header >> 8` —
  four little-endian bytes; `struct.error` is raised when fewer than 4
  bytes remain (the slice is then shorter than 4).
* `out = bytearray(size)` — zero-initialized, fixed length.
* A while loop over a write cursor `d < size` reads one flag byte, then for
  bit positions 7 down to 0 decodes a reference unit (bit set: two bytes
  `b1`, `b2`, `length = ((b1 >> 4) & 0xF) + 3`,
  `offset = (((b1 & 0xF) << 8) | b2) + 1`, then `length` single-byte copies
  `out[d] = out[d - offset]`) or a literal unit (bit clear:
  `out[d] = data[s]`).
* Python indexing `data[s]` raises `IndexError` when `s` is out of range;
  `out[d - offset]` with a negative index `i` resolves to `out[len(out)+i]`
  and raises `IndexError` only when `len(out) + i < 0`.

Bytes are modelled as `Nat` (Python guarantees values in `[0, 255]` for
`bytes` elements; theorems add `< 256` bounds where the arithmetic needs
them).  The while loop is modelled with explicit fuel; `none` marks fuel
exhaustion and is proved unreachable for the fuel `size + 1` used by
`decompress_lz77` (claim C10).
-/

namespace AnalyzeLz77

/-- The uncaught Python exceptions the source function can raise:
`struct.error` from the header unpack and `IndexError` from sequence
indexing.  No other exception escapes `decompress_lz77`. -/
inductive PyErr where
  | structError
  | indexError
deriving DecidableEq, Repr

/-- Python read `data[s]` at a nonnegative index: the byte when `s` is in
range, `IndexError` otherwise (line 22, 31, 32, 46 of the source). -/
def pyByte (data : List Nat) (s : Nat) : Except PyErr Nat :=
  match data.get? s with
  | some b => .ok b
  | none => .error .indexError

/-- Python read `out[i]` at a possibly negative index (line 42 of the
source, `out[d - offset]`): a negative `i` resolves to `len(out) + i`;
`IndexError` when the resolved index is still out of range. -/
def pyGetSigned (out : List Nat) (i : Int) : Except PyErr Nat :=
  let j : Int := if i < 0 then (out.length : Int) + i else i
  if 0 ≤ j ∧ j < (out.length : Int) then .ok (out.getD j.toNat 0)
  else .error .indexError

/-- Lines 14–15: `header = struct.unpack('<I', data[off:off+4])[0]` and
`size = header >> 8`.  The four bytes are little-endian; `struct.error`
when fewer than four bytes remain at the offset. -/
def parseHeader (data : List Nat) (off : Nat) : Except PyErr Nat :=
  match data.get? off, data.get? (off+1), data.get? (off+2), data.get? (off+3) with
  | some b0, some b1, some b2, some b3 =>
      .ok ((b0 + 256 * b1 + 65536 * b2 + 16777216 * b3) >>> 8)
  | _, _, _, _ => .error .structError

/-- Line 35: `length = ((byte1 >> 4) & 0xF) + 3`. -/
def lzLength (b1 : Nat) : Nat := ((b1 >>> 4) &&& 0xF) + 3

/-- Lines 36–37: `offset = (((byte1 & 0xF) << 8) | byte2) + 1`. -/
def lzDistance (b1 b2 : Nat) : Nat := (((b1 &&& 0xF) <<< 8) ||| b2) + 1

/-- Lines 39–43: the per-byte reference copy loop
`for j in range(length): if d >= size: break; out[d] = out[d - offset]; d += 1`.
Returns the updated buffer and cursor, or the uncaught `IndexError` from
`out[d - offset]`. -/
def copyRef (size offset : Nat) : Nat → Nat → List Nat → Except PyErr (List Nat × Nat)
  | 0, d, out => .ok (out, d)
  | j+1, d, out =>
    if size ≤ d then .ok (out, d)
    else
      match pyGetSigned out ((d : Int) - (offset : Int)) with
      | .ok v => copyRef size offset j (d+1) (out.set d v)
      | .error e => .error e

/-- Lines 25–48: `for i in range(7, -1, -1)` over the current flag byte.
The first argument counts the remaining bit positions, so the bit tested
is `1 << i` for `i+1` positions remaining; called with 8 it tests bits
7 down to 0.  Each unit is a reference (bit set) or a literal (bit
clear); the loop stops early once the cursor reaches `size`. -/
def bitsLoop (data : List Nat) (size : Nat) :
    Nat → Nat → Nat → Nat → List Nat → Except PyErr (Nat × Nat × List Nat)
  | 0, _flags, s, d, out => .ok (s, d, out)
  | i+1, flags, s, d, out =>
    if size ≤ d then .ok (s, d, out)
    else if flags &&& (1 <<< i) ≠ 0 then
      match pyByte data s with
      | .error e => .error e
      | .ok b1 =>
        match pyByte data (s+1) with
        | .error e => .error e
        | .ok b2 =>
          match copyRef size (lzDistance b1 b2) (lzLength b1) d out with
          | .error e => .error e
          | .ok (out', d') => bitsLoop data size i flags (s+2) d' out'
    else
      match pyByte data s with
      | .error e => .error e
      | .ok b => bitsLoop data size i flags (s+1) (d+1) (out.set d b)

/-- Lines 21–48: `while d < size:` — read a flag byte, process its 8 bit
positions, repeat.  The fuel argument bounds the number of iterations;
`none` marks exhaustion (proved unreachable for the fuel used below). -/
def decodeLoop (data : List Nat) (size : Nat) :
    Nat → Nat → Nat → List Nat → Option (Except PyErr (List Nat))
  | 0, _s, _d, _out => none
  | fuel+1, s, d, out =>
    if size ≤ d then some (.ok out)
    else
      match pyByte data s with
      | .error e => some (.error e)
      | .ok flags =>
        match bitsLoop data size 8 flags (s+1) d out with
        | .error e => some (.error e)
        | .ok (s', d', out') => decodeLoop data size fuel s' d' out'

/-- Lines 13–50: `decompress_lz77(data, src_offset)` — parse the header,
allocate the zero-initialized output buffer of the declared size, run the
decode loop starting right after the 4-byte header with cursor 0. -/
def decompress_lz77 (data : List Nat) (srcOffset : Nat) :
    Option (Except PyErr (List Nat)) :=
  match parseHeader data srcOffset with
  | .error e => some (.error e)
  | .ok size => decodeLoop data size (size + 1) (srcOffset + 4) 0 (List.replicate size 0)

/-! ### Helper lemmas about the read primitives and the header -/

/-- Reading at or past the end of the source raises `IndexError`. -/
lemma pyByte_out_of_range (data : List Nat) (s : Nat) (h : data.length ≤ s) :
    pyByte data s = .error .indexError := by
  unfold pyByte
  rw [List.get?_eq_none.2 h]

/-- A negative Python index `d - offset` with `offset ≤ len + d` resolves to
the in-range position `len + d - offset`. -/
lemma pyGetSigned_neg_ok (out : List Nat) (d offset : Nat) (h1 : d < offset)
    (h2 : offset ≤ out.length + d) :
    pyGetSigned out ((d : Int) - (offset : Int)) =
      .ok (out.getD (out.length + d - offset) 0) := by
  unfold pyGetSigned
  have hi : ((d : Int) - (offset : Int)) < 0 := by omega
  rw [if_pos hi, if_pos ⟨by omega, by omega⟩]
  have ht : ((out.length : Int) + ((d : Int) - (offset : Int))).toNat =
      out.length + d - offset := by omega
  rw [ht]

/-- A negative Python index `d - offset` raises `IndexError` exactly when
the wrapped position `len + d - offset` is still negative. -/
lemma pyGetSigned_neg_iff (out : List Nat) (d offset : Nat) (h1 : d < offset) :
    pyGetSigned out ((d : Int) - (offset : Int)) = .error .indexError ↔
      out.length + d < offset := by
  constructor
  · intro h
    by_contra hc
    rw [pyGetSigned_neg_ok out d offset h1 (by omega)] at h
    exact Except.noConfusion h
  · intro h
    unfold pyGetSigned
    have hi : ((d : Int) - (offset : Int)) < 0 := by omega
    rw [if_pos hi, if_neg]
    intro hc
    omega

/-- Fewer than 4 source bytes at the offset: the header unpack raises
`struct.error`. -/
lemma parseHeader_short (data : List Nat) (off : Nat) (h : data.length < off + 4) :
    parseHeader data off = .error .structError := by
  have h3 : data.get? (off+3) = none := List.get?_eq_none.2 (by omega)
  unfold parseHeader
  rcases h0 : data.get? off with _ | b0 <;>
    rcases h1 : data.get? (off+1) with _ | b1 <;>
      rcases h2 : data.get? (off+2) with _ | b2 <;>
        rw [h3]

/-- Dropping the low byte of the 32-bit little-endian header keeps the
upper 24 bits. -/
lemma header_shift (b0 m : Nat) (h : b0 < 256) : (b0 + 256 * m) >>> 8 = m := by
  rw [Nat.shiftRight_eq_div_pow]
  norm_num
  omega

/-! ### Structural lemmas about the copy loop, bit loop and decode loop -/

/-- The reference copy loop does nothing once the cursor has reached the
declared size. -/
lemma copyRef_stop (size offset j d : Nat) (out : List Nat) (h : size ≤ d) :
    copyRef size offset j d out = .ok (out, d) := by
  cases j with
  | zero => rfl
  | succ j => unfold copyRef; rw [if_pos h]

/-- The copy loop never moves the cursor backwards. -/
lemma copyRef_d_mono (size offset : Nat) :
    ∀ (j d : Nat) (out out' : List Nat) (d' : Nat),
      copyRef size offset j d out = .ok (out', d') → d ≤ d' := by
  intro j
  induction j with
  | zero =>
    intro d out out' d' h
    unfold copyRef at h
    cases h
    exact Nat.le_refl d
  | succ j ih =>
    intro d out out' d' h
    unfold copyRef at h
    by_cases hd : size ≤ d
    · rw [if_pos hd] at h
      cases h
      exact Nat.le_refl d
    · rw [if_neg hd] at h
      cases hg : pyGetSigned out ((d : Int) - (offset : Int)) with
      | ok v =>
        rw [hg] at h
        exact Nat.le_of_succ_le (ih (d+1) (out.set d v) out' d' h)
      | error e => rw [hg] at h; exact Except.noConfusion h

/-- The copy loop keeps the cursor within the declared size. -/
lemma copyRef_d_le (size offset : Nat) :
    ∀ (j d : Nat) (out out' : List Nat) (d' : Nat), d ≤ size →
      copyRef size offset j d out = .ok (out', d') → d' ≤ size := by
  intro j
  induction j with
  | zero =>
    intro d out out' d' hd h
    unfold copyRef at h
    cases h
    exact hd
  | succ j ih =>
    intro d out out' d' hd h
    unfold copyRef at h
    by_cases hds : size ≤ d
    · rw [if_pos hds] at h
      cases h
      exact hd
    · rw [if_neg hds] at h
      cases hg : pyGetSigned out ((d : Int) - (offset : Int)) with
      | ok v => rw [hg] at h; exact ih (d+1) (out.set d v) out' d' (by omega) h
      | error e => rw [hg] at h; exact Except.noConfusion h

/-- The copy loop preserves the length of the output buffer. -/
lemma copyRef_length (size offset : Nat) :
    ∀ (j d : Nat) (out out' : List Nat) (d' : Nat),
      copyRef size offset j d out = .ok (out', d') → out'.length = out.length := by
  intro j
  induction j with
  | zero =>
    intro d out out' d' h
    unfold copyRef at h
    cases h
    rfl
  | succ j ih =>
    intro d out out' d' h
    unfold copyRef at h
    by_cases hd : size ≤ d
    · rw [if_pos hd] at h
      cases h
      rfl
    · rw [if_neg hd] at h
      cases hg : pyGetSigned out ((d : Int) - (offset : Int)) with
      | ok v =>
        rw [hg] at h
        have := ih (d+1) (out.set d v) out' d' h
        simpa using this
      | error e => rw [hg] at h; exact Except.noConfusion h

/-- A nonempty copy starting strictly below the declared size moves the
cursor strictly forward. -/
lemma copyRef_progress (size offset j d : Nat) (out out' : List Nat) (d' : Nat)
    (hj : 0 < j) (hd : d < size)
    (h : copyRef size offset j d out = .ok (out', d')) : d < d' := by
  cases j with
  | zero => omega
  | succ j =>
    unfold copyRef at h
    rw [if_neg (by omega)] at h
    cases hg : pyGetSigned out ((d : Int) - (offset : Int)) with
    | ok v =>
      rw [hg] at h
      exact Nat.lt_of_lt_of_le (Nat.lt_succ_self d) (copyRef_d_mono size offset j (d+1) _ out' d' h)
    | error e => rw [hg] at h; exact Except.noConfusion h

/-- The bit loop does nothing once the cursor has reached the declared
size: the remaining bit positions of the flag byte are abandoned. -/
lemma bitsLoop_stop (data : List Nat) (size i flags s d : Nat) (out : List Nat)
    (h : size ≤ d) : bitsLoop data size i flags s d out = .ok (s, d, out) := by
  cases i with
  | zero => rfl
  | succ i => unfold bitsLoop; rw [if_pos h]

/-- The bit loop never moves the cursor backwards. -/
lemma bitsLoop_d_mono (data : List Nat) (size : Nat) :
    ∀ (i flags s d : Nat) (out : List Nat) (s' d' : Nat) (out' : List Nat),
      bitsLoop data size i flags s d out = .ok (s', d', out') → d ≤ d' := by
  intro i
  induction i with
  | zero =>
    intro flags s d out s' d' out' h
    unfold bitsLoop at h
    cases h
    exact Nat.le_refl d
  | succ i ih =>
    intro flags s d out s' d' out' h
    unfold bitsLoop at h
    by_cases hd : size ≤ d
    · rw [if_pos hd] at h
      cases h
      exact Nat.le_refl d
    · rw [if_neg hd] at h
      by_cases hf : flags &&& (1 <<< i) ≠ 0
      · rw [if_pos hf] at h
        cases h1 : pyByte data s with
        | error e => rw [h1] at h; exact Except.noConfusion h
        | ok b1 =>
          rw [h1] at h
          simp only [] at h
          cases h2 : pyByte data (s+1) with
          | error e => rw [h2] at h; exact Except.noConfusion h
          | ok b2 =>
            rw [h2] at h
            simp only [] at h
            cases h3 : copyRef size (lzDistance b1 b2) (lzLength b1) d out with
            | error e => rw [h3] at h; exact Except.noConfusion h
            | ok p =>
              obtain ⟨out1, d1⟩ := p
              rw [h3] at h
              simp only [] at h
              exact Nat.le_trans (copyRef_d_mono size _ _ d out out1 d1 h3)
                (ih flags (s+2) d1 out1 s' d' out' h)
      · rw [if_neg hf] at h
        cases h1 : pyByte data s with
        | error e => rw [h1] at h; exact Except.noConfusion h
        | ok b =>
          rw [h1] at h
          simp only [] at h
          exact Nat.le_of_succ_le (ih flags (s+1) (d+1) (out.set d b) s' d' out' h)

/-- The bit loop keeps the cursor within the declared size. -/
lemma bitsLoop_d_le (data : List Nat) (size : Nat) :
    ∀ (i flags s d : Nat) (out : List Nat) (s' d' : Nat) (out' : List Nat), d ≤ size →
      bitsLoop data size i flags s d out = .ok (s', d', out') → d' ≤ size := by
  intro i
  induction i with
  | zero =>
    intro flags s d out s' d' out' hd h
    unfold bitsLoop at h
    cases h
    exact hd
  | succ i ih =>
    intro flags s d out s' d' out' hd h
    unfold bitsLoop at h
    by_cases hds : size ≤ d
    · rw [if_pos hds] at h
      cases h
      exact hd
    · rw [if_neg hds] at h
      by_cases hf : flags &&& (1 <<< i) ≠ 0
      · rw [if_pos hf] at h
        cases h1 : pyByte data s with
        | error e => rw [h1] at h; exact Except.noConfusion h
        | ok b1 =>
          rw [h1] at h
          simp only [] at h
          cases h2 : pyByte data (s+1) with
          | error e => rw [h2] at h; exact Except.noConfusion h
          | ok b2 =>
            rw [h2] at h
            simp only [] at h
            cases h3 : copyRef size (lzDistance b1 b2) (lzLength b1) d out with
            | error e => rw [h3] at h; exact Except.noConfusion h
            | ok p =>
              obtain ⟨out1, d1⟩ := p
              rw [h3] at h
              simp only [] at h
              exact ih flags (s+2) d1 out1 s' d' out'
                (copyRef_d_le size _ _ d out out1 d1 (by omega) h3) h
      · rw [if_neg hf] at h
        cases h1 : pyByte data s with
        | error e => rw [h1] at h; exact Except.noConfusion h
        | ok b =>
          rw [h1] at h
          simp only [] at h
          exact ih flags (s+1) (d+1) (out.set d b) s' d' out' (by omega) h

/-- The bit loop preserves the length of the output buffer. -/
lemma bitsLoop_length (data : List Nat) (size : Nat) :
    ∀ (i flags s d : Nat) (out : List Nat) (s' d' : Nat) (out' : List Nat),
      bitsLoop data size i flags s d out = .ok (s', d', out') →
      out'.length = out.length := by
  intro i
  induction i with
  | zero =>
    intro flags s d out s' d' out' h
    unfold bitsLoop at h
    cases h
    rfl
  | succ i ih =>
    intro flags s d out s' d' out' h
    unfold bitsLoop at h
    by_cases hd : size ≤ d
    · rw [if_pos hd] at h
      cases h
      rfl
    · rw [if_neg hd] at h
      by_cases hf : flags &&& (1 <<< i) ≠ 0
      · rw [if_pos hf] at h
        cases h1 : pyByte data s with
        | error e => rw [h1] at h; exact Except.noConfusion h
        | ok b1 =>
          rw [h1] at h
          simp only [] at h
          cases h2 : pyByte data (s+1) with
          | error e => rw [h2] at h; exact Except.noConfusion h
          | ok b2 =>
            rw [h2] at h
            simp only [] at h
            cases h3 : copyRef size (lzDistance b1 b2) (lzLength b1) d out with
            | error e => rw [h3] at h; exact Except.noConfusion h
            | ok p =>
              obtain ⟨out1, d1⟩ := p
              rw [h3] at h
              simp only [] at h
              rw [ih flags (s+2) d1 out1 s' d' out' h]
              exact copyRef_length size _ _ d out out1 d1 h3
      · rw [if_neg hf] at h
        cases h1 : pyByte data s with
        | error e => rw [h1] at h; exact Except.noConfusion h
        | ok b =>
          rw [h1] at h
          simp only [] at h
          have := ih flags (s+1) (d+1) (out.set d b) s' d' out' h
          simpa using this

/-- A bit loop with at least one remaining bit position, entered strictly
below the declared size, moves the cursor strictly forward on success:
every decoded unit writes at least one byte. -/
lemma bitsLoop_progress (data : List Nat) (size i flags s d : Nat) (out : List Nat)
    (s' d' : Nat) (out' : List Nat) (hd : d < size)
    (h : bitsLoop data size (i+1) flags s d out = .ok (s', d', out')) : d < d' := by
  unfold bitsLoop at h
  rw [if_neg (by omega)] at h
  by_cases hf : flags &&& (1 <<< i) ≠ 0
  · rw [if_pos hf] at h
    cases h1 : pyByte data s with
    | error e => rw [h1] at h; exact Except.noConfusion h
    | ok b1 =>
      rw [h1] at h
      simp only [] at h
      cases h2 : pyByte data (s+1) with
      | error e => rw [h2] at h; exact Except.noConfusion h
      | ok b2 =>
        rw [h2] at h
        simp only [] at h
        cases h3 : copyRef size (lzDistance b1 b2) (lzLength b1) d out with
        | error e => rw [h3] at h; exact Except.noConfusion h
        | ok p =>
          obtain ⟨out1, d1⟩ := p
          rw [h3] at h
          simp only [] at h
          have hcp : d < d1 :=
            copyRef_progress size (lzDistance b1 b2) (lzLength b1) d out out1 d1
              (by unfold lzLength; omega) hd h3
          exact Nat.lt_of_lt_of_le hcp (bitsLoop_d_mono data size i flags (s+2) d1 out1 s' d' out' h)
  · rw [if_neg hf] at h
    cases h1 : pyByte data s with
    | error e => rw [h1] at h; exact Except.noConfusion h
    | ok b =>
      rw [h1] at h
      simp only [] at h
      exact Nat.lt_of_lt_of_le (Nat.lt_succ_self d)
        (bitsLoop_d_mono data size i flags (s+1) (d+1) (out.set d b) s' d' out' h)

/-- The bit loop never moves the source position backwards. -/
lemma bitsLoop_s_mono (data : List Nat) (size : Nat) :
    ∀ (i flags s d : Nat) (out : List Nat) (s' d' : Nat) (out' : List Nat),
      bitsLoop data size i flags s d out = .ok (s', d', out') → s ≤ s' := by
  intro i
  induction i with
  | zero =>
    intro flags s d out s' d' out' h
    unfold bitsLoop at h
    cases h
    exact Nat.le_refl s
  | succ i ih =>
    intro flags s d out s' d' out' h
    unfold bitsLoop at h
    by_cases hd : size ≤ d
    · rw [if_pos hd] at h
      cases h
      exact Nat.le_refl s
    · rw [if_neg hd] at h
      by_cases hf : flags &&& (1 <<< i) ≠ 0
      · rw [if_pos hf] at h
        cases h1 : pyByte data s with
        | error e => rw [h1] at h; exact Except.noConfusion h
        | ok b1 =>
          rw [h1] at h
          simp only [] at h
          cases h2 : pyByte data (s+1) with
          | error e => rw [h2] at h; exact Except.noConfusion h
          | ok b2 =>
            rw [h2] at h
            simp only [] at h
            cases h3 : copyRef size (lzDistance b1 b2) (lzLength b1) d out with
            | error e => rw [h3] at h; exact Except.noConfusion h
            | ok p =>
              obtain ⟨out1, d1⟩ := p
              rw [h3] at h
              simp only [] at h
              have := ih flags (s+2) d1 out1 s' d' out' h
              omega
      · rw [if_neg hf] at h
        cases h1 : pyByte data s with
        | error e => rw [h1] at h; exact Except.noConfusion h
        | ok b =>
          rw [h1] at h
          simp only [] at h
          have := ih flags (s+1) (d+1) (out.set d b) s' d' out' h
          omega

/-- With fuel left, the decode loop ends as soon as the cursor reaches the
declared size, returning the buffer unchanged. -/
lemma decodeLoop_stop (data : List Nat) (size fuel s d : Nat) (out : List Nat)
    (hf : 0 < fuel) (h : size ≤ d) :
    decodeLoop data size fuel s d out = some (.ok out) := by
  cases fuel with
  | zero => omega
  | succ fuel => unfold decodeLoop; rw [if_pos h]

/-- A successful decode loop preserves the length of the output buffer. -/
lemma decodeLoop_ok_length (data : List Nat) (size : Nat) :
    ∀ (fuel s d : Nat) (out out' : List Nat),
      decodeLoop data size fuel s d out = some (.ok out') →
      out'.length = out.length := by
  intro fuel
  induction fuel with
  | zero =>
    intro s d out out' h
    exact Option.noConfusion h
  | succ fuel ih =>
    intro s d out out' h
    unfold decodeLoop at h
    by_cases hd : size ≤ d
    · rw [if_pos hd] at h
      cases h
      rfl
    · rw [if_neg hd] at h
      cases h1 : pyByte data s with
      | error e =>
        rw [h1] at h
        simp only [] at h
        cases h
      | ok flags =>
        rw [h1] at h
        simp only [] at h
        cases h2 : bitsLoop data size 8 flags (s+1) d out with
        | error e =>
          rw [h2] at h
          simp only [] at h
          cases h
        | ok p =>
          obtain ⟨s1, d1, out1⟩ := p
          rw [h2] at h
          simp only [] at h
          rw [ih s1 d1 out1 out' h]
          exact bitsLoop_length data size 8 flags (s+1) d out s1 d1 out1 h2

/-- Fuel exceeding the remaining output distance is enough: the decode loop
never runs out, because every flag-byte round either errs or strictly
increases the cursor. -/
lemma decodeLoop_isSome (data : List Nat) (size : Nat) :
    ∀ (fuel s d : Nat) (out : List Nat), size - d < fuel →
      (decodeLoop data size fuel s d out).isSome := by
  intro fuel
  induction fuel with
  | zero => intro s d out h; omega
  | succ fuel ih =>
    intro s d out hfuel
    unfold decodeLoop
    by_cases hd : size ≤ d
    · rw [if_pos hd]; rfl
    · rw [if_neg hd]
      cases h1 : pyByte data s with
      | error e => rfl
      | ok flags =>
        simp only []
        cases h2 : bitsLoop data size 8 flags (s+1) d out with
        | error e => rfl
        | ok p =>
          obtain ⟨s1, d1, out1⟩ := p
          simp only []
          have hprog : d < d1 := by
            have h8 : (8 : Nat) = 7 + 1 := rfl
            rw [h8] at h2
            exact bitsLoop_progress data size 7 flags (s+1) d out s1 d1 out1 (by omega) h2
          exact ih s1 d1 out1 (by omega)

/-- The bit loop reads the source only at indices at or beyond its current
source position: two sources agreeing from `s0` on decode identically. -/
lemma bitsLoop_congr (data1 data2 : List Nat) (size s0 : Nat)
    (hag : ∀ s, s0 ≤ s → data1.get? s = data2.get? s) :
    ∀ (i flags s d : Nat) (out : List Nat), s0 ≤ s →
      bitsLoop data1 size i flags s d out = bitsLoop data2 size i flags s d out := by
  intro i
  induction i with
  | zero => intro flags s d out hs; rfl
  | succ i ih =>
    intro flags s d out hs
    have hpb : pyByte data1 s = pyByte data2 s := by
      unfold pyByte; rw [hag s hs]
    unfold bitsLoop
    by_cases hd : size ≤ d
    · rw [if_pos hd, if_pos hd]
    · rw [if_neg hd, if_neg hd]
      by_cases hf : flags &&& (1 <<< i) ≠ 0
      · rw [if_pos hf, if_pos hf, hpb]
        cases h1 : pyByte data2 s with
        | error e => rfl
        | ok b1 =>
          simp only []
          have hpb2 : pyByte data1 (s+1) = pyByte data2 (s+1) := by
            unfold pyByte; rw [hag (s+1) (by omega)]
          rw [hpb2]
          cases h2 : pyByte data2 (s+1) with
          | error e => rfl
          | ok b2 =>
            simp only []
            cases h3 : copyRef size (lzDistance b1 b2) (lzLength b1) d out with
            | error e => rfl
            | ok p =>
              obtain ⟨out1, d1⟩ := p
              simp only []
              exact ih flags (s+2) d1 out1 (by omega)
      · rw [if_neg hf, if_neg hf, hpb]
        cases h1 : pyByte data2 s with
        | error e => rfl
        | ok b =>
          simp only []
          exact ih flags (s+1) (d+1) (out.set d b) (by omega)

/-- The decode loop reads the source only at indices at or beyond its
current source position. -/
lemma decodeLoop_congr (data1 data2 : List Nat) (size s0 : Nat)
    (hag : ∀ s, s0 ≤ s → data1.get? s = data2.get? s) :
    ∀ (fuel s d : Nat) (out : List Nat), s0 ≤ s →
      decodeLoop data1 size fuel s d out = decodeLoop data2 size fuel s d out := by
  intro fuel
  induction fuel with
  | zero => intro s d out hs; rfl
  | succ fuel ih =>
    intro s d out hs
    have hpb : pyByte data1 s = pyByte data2 s := by
      unfold pyByte; rw [hag s hs]
    unfold decodeLoop
    by_cases hd : size ≤ d
    · rw [if_pos hd, if_pos hd]
    · rw [if_neg hd, if_neg hd, hpb]
      cases h1 : pyByte data2 s with
      | error e => rfl
      | ok flags =>
        simp only []
        rw [bitsLoop_congr data1 data2 size s0 hag 8 flags (s+1) d out (by omega)]
        cases h2 : bitsLoop data2 size 8 flags (s+1) d out with
        | error e => rfl
        | ok p =>
          obtain ⟨s1, d1, out1⟩ := p
          simp only []
          have hsm : s + 1 ≤ s1 :=
            bitsLoop_s_mono data2 size 8 flags (s+1) d out s1 d1 out1 h2
          exact ih s1 d1 out1 (by omega)

/-! ### Claim theorems -/

/-- C1: for the input whose header declares size 5 and whose compressed
stream after the header is the flag byte 0x40 followed by 0x41, 0x00,
0x00, 0x42, `decompress_lz77` returns exactly [0x41, 0x41, 0x41, 0x41,
0x42]: the length-3, distance-1 reference copies byte-by-byte, each
copied byte becoming the source of the next (run-length expansion). -/
theorem C1_worked_example :
    decompress_lz77 [0x10, 0x05, 0x00, 0x00, 0x40, 0x41, 0x00, 0x00, 0x42] 0 =
      some (.ok [0x41, 0x41, 0x41, 0x41, 0x42]) := by
  rfl

/-- C3 counterexample: a reference unit encountered at cursor 0 with
decoded distance 1 does not fail at all — `decompress_lz77` returns
normally with output [0, 0, 0], refuting the claim that it fails with a
ReferenceOutOfRangeError (no such error exists in the code). -/
theorem C3_counterexample :
    decompress_lz77 [0x10, 0x03, 0x00, 0x00, 0x80, 0x00, 0x00] 0 =
      some (.ok [0, 0, 0]) := by
  rfl

/-- C3 amended: for a reference unit whose decoded distance exceeds the
current cursor, `decompress_lz77` performs no range check.  Whenever the
distance does not exceed declared size + cursor, the Python negative
index `cursor - distance` resolves inside the output buffer at position
`size + cursor - distance` and the read succeeds; concretely, a size-4
decode whose first unit is a reference with distance 2 at cursor 0
returns normally. -/
theorem C3_amended_negative_wrap :
    (∀ (out : List Nat) (d offset : Nat), d < offset → offset ≤ out.length + d →
      pyGetSigned out ((d : Int) - (offset : Int)) =
        .ok (out.getD (out.length + d - offset) 0)) ∧
    decompress_lz77 [0x10, 0x04, 0x00, 0x00, 0x80, 0x10, 0x01] 0 =
      some (.ok [0, 0, 0, 0]) := by
  exact ⟨pyGetSigned_neg_ok, by rfl⟩

/-- Witness for C3 amended: the negative-index read at cursor 1 with
distance 2 in a length-3 buffer resolves to position 2 and succeeds. -/
theorem C3_amended_negative_wrap_witness :
    pyGetSigned [5, 6, 7] ((1 : Int) - (2 : Int)) = .ok 7 ∧
    decompress_lz77 [0x10, 0x04, 0x00, 0x00, 0x80, 0x10, 0x01] 0 =
      some (.ok [0, 0, 0, 0]) := by
  exact ⟨C3_amended_negative_wrap.1 [5, 6, 7] 1 2 (by decide) (by decide),
    C3_amended_negative_wrap.2⟩

/-- C5 counterexample: a stream that ends fewer than 2 bytes after a flag
byte indicating a reference fails with the modelled uncaught Python
IndexError, not with a TruncatedStreamError — no such tagged error exists
anywhere in the code (the error type `PyErr` of the embedding has no
truncated-stream kind because the source raises none). -/
theorem C5_counterexample :
    decompress_lz77 [0x10, 0x03, 0x00, 0x00, 0x80, 0x00] 0 =
      some (.error .indexError) := by
  rfl

/-- C5 amended: whenever the source is exhausted before a flag byte, a
literal byte, or the two bytes of a reference unit can be read,
`decompress_lz77` raises an uncaught IndexError (Python sequence
indexing), never reading past the end of the source — every source
access goes through the bounds-checked `pyByte`.  The three concrete
decodes exhaust the source at a flag byte, at a literal byte, and at the
second byte of a reference pair respectively. -/
theorem C5_amended_index_error :
    (∀ (data : List Nat) (s : Nat), data.length ≤ s →
      pyByte data s = .error .indexError) ∧
    decompress_lz77 [0x10, 0x01, 0x00, 0x00] 0 = some (.error .indexError) ∧
    decompress_lz77 [0x10, 0x01, 0x00, 0x00, 0x00] 0 = some (.error .indexError) ∧
    decompress_lz77 [0x10, 0x03, 0x00, 0x00, 0x80, 0xAB] 0 =
      some (.error .indexError) := by
  exact ⟨pyByte_out_of_range, by rfl, by rfl, by rfl⟩

/-- Witness for C5 amended: reading index 5 of a 2-byte source raises
IndexError. -/
theorem C5_amended_index_error_witness :
    pyByte [1, 2] 5 = .error .indexError :=
  C5_amended_index_error.1 [1, 2] 5 (by decide)

/-- C7 counterexample: a header declaring size 2 — which exceeds, say, a
caller maximum of 1 — does not make the decode fail: `decompress_lz77`
takes no caller-supplied maximum and returns the decoded bytes, refuting
the claim that it fails with a SizeLimitExceededError. -/
theorem C7_counterexample :
    decompress_lz77 [0x20, 0x02, 0x00, 0x00, 0x00, 0x41, 0x42] 0 =
      some (.ok [0x41, 0x42]) := by
  rfl

/-- C7 amended: `decompress_lz77` has no size-limit parameter and no
size-limit failure.  For every parsed declared size it unconditionally
allocates the zero-initialized output buffer of that size and enters the
decode loop — no check of any maximum stands between header parse and
allocation. -/
theorem C7_amended_no_limit :
    ∀ (data : List Nat) (off size : Nat), parseHeader data off = .ok size →
      decompress_lz77 data off =
        decodeLoop data size (size + 1) (off + 4) 0 (List.replicate size 0) := by
  intro data off size h
  unfold decompress_lz77
  rw [h]

/-- Witness for C7 amended: a header declaring size 2 goes straight to the
decode loop over a fresh 2-byte zero buffer. -/
theorem C7_amended_no_limit_witness :
    decompress_lz77 [0x20, 0x02, 0x00, 0x00, 0x00, 0x41, 0x42] 0 =
      decodeLoop [0x20, 0x02, 0x00, 0x00, 0x00, 0x41, 0x42] 2 3 4 0
        (List.replicate 2 0) :=
  C7_amended_no_limit [0x20, 0x02, 0x00, 0x00, 0x00, 0x41, 0x42] 0 2 (by rfl)

/-- C9: every input whose header declares decompressed size 0 yields the
empty output; the while loop is never entered, so no flag byte is read
— in particular a source consisting of the bare 4-byte header (nothing
after it) decodes successfully, showing only the header is consumed. -/
theorem C9_size_zero :
    (∀ (data : List Nat) (off : Nat), parseHeader data off = .ok 0 →
      decompress_lz77 data off = some (.ok [])) ∧
    decompress_lz77 [0x10, 0x00, 0x00, 0x00] 0 = some (.ok []) := by
  constructor
  · intro data off h
    unfold decompress_lz77
    rw [h]
    rfl
  · rfl

/-- Witness for C9: the bare header declaring size 0 decodes to the empty
output. -/
theorem C9_size_zero_witness :
    decompress_lz77 [0x10, 0x00, 0x00, 0x00] 0 = some (.ok []) :=
  C9_size_zero.1 [0x10, 0x00, 0x00, 0x00] 0 (by rfl)

/-- C10: `decompress_lz77` terminates on every input: each flag-byte round
either errs or strictly increases the cursor, so the fuel `size + 1`
given to the decode loop is never exhausted and the result is always
`some` (completion or failure, never divergence). -/
theorem C10_terminates :
    ∀ (data : List Nat) (off : Nat), (decompress_lz77 data off).isSome := by
  intro data off
  unfold decompress_lz77
  cases h : parseHeader data off with
  | error e => rfl
  | ok size =>
    exact decodeLoop_isSome data size (size + 1) (off + 4) 0
      (List.replicate size 0) (by omega)

/-- C2: every reference unit decodes `length = ((b1 >> 4) & 0xF) + 3`,
always in [3, 18], and `distance = (((b1 & 0xF) << 8) | b2) + 1`, in
[1, 4096] for byte values of b2; the reference branch of the bit loop
invokes the per-byte copy with exactly these values, and the copy writes
one byte at a time at the cursor, reading from `cursor - distance` and
incrementing the cursor after each byte — never a block copy. -/
theorem C2_reference_decoding :
    (∀ b1 : Nat, 3 ≤ lzLength b1 ∧ lzLength b1 ≤ 18) ∧
    (∀ b1 b2 : Nat, b2 < 256 → 1 ≤ lzDistance b1 b2 ∧ lzDistance b1 b2 ≤ 4096) ∧
    (∀ (data : List Nat) (size i flags s d : Nat) (out : List Nat), d < size →
      flags &&& (1 <<< i) ≠ 0 →
      bitsLoop data size (i+1) flags s d out =
        (match pyByte data s with
         | .error e => .error e
         | .ok b1 =>
           match pyByte data (s+1) with
           | .error e => .error e
           | .ok b2 =>
             match copyRef size (lzDistance b1 b2) (lzLength b1) d out with
             | .error e => .error e
             | .ok (out', d') => bitsLoop data size i flags (s+2) d' out')) ∧
    (∀ (size offset j d : Nat) (out : List Nat), d < size →
      copyRef size offset (j+1) d out =
        (match pyGetSigned out ((d : Int) - (offset : Int)) with
         | .ok v => copyRef size offset j (d+1) (out.set d v)
         | .error e => .error e)) := by
  refine ⟨?_, ?_, ?_, ?_⟩
  · intro b1
    unfold lzLength
    have h := @Nat.and_le_right (b1 >>> 4) 0xF
    omega
  · intro b1 b2 hb2
    unfold lzDistance
    constructor
    · omega
    · have h1 : (b1 &&& 0xF) <<< 8 < 2 ^ 12 := by
        have := @Nat.and_le_right b1 0xF
        rw [Nat.shiftLeft_eq]
        norm_num
        omega
      have h2 : b2 < 2 ^ 12 := by norm_num; omega
      have h3 := Nat.or_lt_two_pow h1 h2
      norm_num at h3
      omega
  · intro data size i flags s d out hd hf
    conv_lhs => unfold bitsLoop
    rw [if_neg (by omega : ¬ size ≤ d), if_pos hf]
  · intro size offset j d out hd
    conv_lhs => unfold copyRef
    rw [if_neg (by omega : ¬ size ≤ d)]

/-- Witness for C2: the bounds at b1 = 0xAB, b2 = 0xCD, the reference
branch at a one-bit loop with flag 0xFF, and one copy step at cursor 1
with distance 1 in a size-3 decode. -/
theorem C2_reference_decoding_witness :
    (3 ≤ lzLength 0xAB ∧ lzLength 0xAB ≤ 18) ∧
    (1 ≤ lzDistance 0xAB 0xCD ∧ lzDistance 0xAB 0xCD ≤ 4096) ∧
    (bitsLoop [0x00, 0x00] 3 1 0xFF 0 0 [0, 0, 0] =
      (match pyByte [0x00, 0x00] 0 with
       | .error e => .error e
       | .ok b1 =>
         match pyByte [0x00, 0x00] 1 with
         | .error e => .error e
         | .ok b2 =>
           match copyRef 3 (lzDistance b1 b2) (lzLength b1) 0 [0, 0, 0] with
           | .error e => .error e
           | .ok (out', d') => bitsLoop [0x00, 0x00] 3 0 0xFF 2 d' out')) ∧
    (copyRef 3 1 1 1 [7, 0, 0] =
      (match pyGetSigned [7, 0, 0] ((1 : Int) - (1 : Int)) with
       | .ok v => copyRef 3 1 0 2 ([7, 0, 0].set 1 v)
       | .error e => .error e)) := by
  refine ⟨C2_reference_decoding.1 0xAB,
    C2_reference_decoding.2.1 0xAB 0xCD (by decide),
    C2_reference_decoding.2.2.1 [0x00, 0x00] 3 0 0xFF 0 0 [0, 0, 0]
      (by decide) (by decide),
    C2_reference_decoding.2.2.2 3 1 0 1 [7, 0, 0] (by decide)⟩

/-- C4: when a reference is decoded with distance exceeding the cursor
there is no range check: the Python negative index `cursor - distance`
raises IndexError exactly when `distance - cursor` exceeds the buffer
length (the declared size), otherwise it resolves to position
`size + cursor - distance`, which reads 0 whenever the positions from the
cursor on are still zero (as in the zero-initialized, forward-only
buffer, where `size ≥ distance` puts the resolved position at or beyond
the cursor); the size-5 decode with a distance-4 reference at cursor 1
returns normally with the copied bytes zero, and the size-2 decode with a
distance-3 reference at cursor 0 raises an uncaught IndexError. -/
theorem C4_negative_indexing :
    (∀ (out : List Nat) (d offset : Nat), d < offset →
      (pyGetSigned out ((d : Int) - (offset : Int)) = .error .indexError ↔
        out.length + d < offset)) ∧
    (∀ (out : List Nat) (d offset : Nat), d < offset → offset ≤ out.length →
      (∀ k, d ≤ k → out.getD k 0 = 0) →
      pyGetSigned out ((d : Int) - (offset : Int)) = .ok 0) ∧
    decompress_lz77 [0x10, 0x05, 0x00, 0x00, 0x40, 0x41, 0x00, 0x03, 0x42] 0 =
      some (.ok [0x41, 0, 0, 0, 0x42]) ∧
    decompress_lz77 [0x10, 0x02, 0x00, 0x00, 0x80, 0x00, 0x02] 0 =
      some (.error .indexError) := by
  refine ⟨pyGetSigned_neg_iff, ?_, by rfl, by rfl⟩
  intro out d offset h1 h2 hz
  rw [pyGetSigned_neg_ok out d offset h1 (by omega)]
  rw [hz (out.length + d - offset) (by omega)]

/-- Witness for C4: the IndexError criterion at a 2-byte buffer with
cursor 0 and distance 5, and the still-zero read at a 3-byte buffer with
cursor 1 and distance 2. -/
theorem C4_negative_indexing_witness :
    (pyGetSigned [9, 9] ((0 : Int) - (5 : Int)) = .error .indexError ↔
      2 + 0 < 5) ∧
    pyGetSigned [3, 0, 0] ((1 : Int) - (2 : Int)) = .ok 0 := by
  constructor
  · exact C4_negative_indexing.1 [9, 9] 0 5 (by decide)
  · refine C4_negative_indexing.2.1 [3, 0, 0] 1 2 (by decide) (by decide) ?_
    intro k hk
    match k with
    | 0 => omega
    | 1 => rfl
    | 2 => rfl
    | n + 3 => rfl

/-- C6 counterexample: the same body decoded under two different low
header bytes (the format tag position) succeeds both times with identical
output — the code never compares the tag against anything, so whichever
of 0x00 and 0xFF differs from the expected tag refutes the claim that a
mismatched tag fails with FormatError. -/
theorem C6_counterexample :
    decompress_lz77 [0x00, 0x01, 0x00, 0x00, 0x00, 0x41] 0 = some (.ok [0x41]) ∧
    decompress_lz77 [0xFF, 0x01, 0x00, 0x00, 0x00, 0x41] 0 = some (.ok [0x41]) := by
  exact ⟨by rfl, by rfl⟩

/-- C6 amended: the header parse reads 4 bytes at the offset as a
little-endian unsigned integer and takes the upper 24 bits as the
declared size; when fewer than 4 bytes remain it raises an uncaught
`struct.error` (not a FormatError), and the low 8 bits are never
validated: two sources that differ only in the byte at the offset decode
identically. -/
theorem C6_amended_header :
    (∀ (data : List Nat) (off : Nat), data.length < off + 4 →
      parseHeader data off = .error .structError) ∧
    (∀ b0 m : Nat, b0 < 256 → (b0 + 256 * m) >>> 8 = m) ∧
    (∀ (data1 data2 : List Nat) (off b0 b0' : Nat),
      (∀ i, i ≠ off → data1.get? i = data2.get? i) →
      data1.get? off = some b0 → data2.get? off = some b0' →
      b0 < 256 → b0' < 256 →
      decompress_lz77 data1 off = decompress_lz77 data2 off) := by
  refine ⟨parseHeader_short, header_shift, ?_⟩
  intro data1 data2 off b0 b0' hag h0 h0' hb hb'
  have e1 : data1.get? (off+1) = data2.get? (off+1) := hag _ (by omega)
  have e2 : data1.get? (off+2) = data2.get? (off+2) := hag _ (by omega)
  have e3 : data1.get? (off+3) = data2.get? (off+3) := hag _ (by omega)
  have hagS : ∀ s, off + 4 ≤ s → data1.get? s = data2.get? s :=
    fun s hs => hag s (by omega)
  unfold decompress_lz77 parseHeader
  rw [h0, h0', e1, e2, e3]
  cases k1 : data2.get? (off+1) with
  | none => rfl
  | some c1 =>
    cases k2 : data2.get? (off+2) with
    | none => rfl
    | some c2 =>
      cases k3 : data2.get? (off+3) with
      | none => rfl
      | some c3 =>
        simp only []
        have hs1 : (b0 + 256 * c1 + 65536 * c2 + 16777216 * c3) >>> 8 =
            c1 + 256 * c2 + 65536 * c3 := by
          rw [show b0 + 256 * c1 + 65536 * c2 + 16777216 * c3 =
            b0 + 256 * (c1 + 256 * c2 + 65536 * c3) by ring]
          exact header_shift b0 _ hb
        have hs2 : (b0' + 256 * c1 + 65536 * c2 + 16777216 * c3) >>> 8 =
            c1 + 256 * c2 + 65536 * c3 := by
          rw [show b0' + 256 * c1 + 65536 * c2 + 16777216 * c3 =
            b0' + 256 * (c1 + 256 * c2 + 65536 * c3) by ring]
          exact header_shift b0' _ hb'
        rw [hs1, hs2]
        exact decodeLoop_congr data1 data2 _ (off+4) hagS _ (off+4) 0 _
          (Nat.le_refl _)

/-- Witness for C6 amended: a 2-byte source errs with `struct.error`; the
shift drops a low byte of 7; and the two tag variants of the
counterexample input decode identically. -/
theorem C6_amended_header_witness :
    parseHeader [1, 2] 0 = .error .structError ∧
    (7 + 256 * 5) >>> 8 = 5 ∧
    decompress_lz77 [0x00, 0x01, 0x00, 0x00, 0x00, 0x41] 0 =
      decompress_lz77 [0xFF, 0x01, 0x00, 0x00, 0x00, 0x41] 0 := by
  refine ⟨C6_amended_header.1 [1, 2] 0 (by decide),
    C6_amended_header.2.1 7 5 (by decide),
    C6_amended_header.2.2 [0x00, 0x01, 0x00, 0x00, 0x00, 0x41]
      [0xFF, 0x01, 0x00, 0x00, 0x00, 0x41] 0 0x00 0xFF ?_ (by rfl) (by rfl)
      (by decide) (by decide)⟩
  intro i hi
  cases i with
  | zero => exact absurd rfl hi
  | succ i => rfl

/-- C8: the cursor never exceeds the declared size — the copy loop and
the bit loop stop exactly at the declared size and preserve any cursor
bound — with fuel left the decode loop returns as soon as the cursor
reaches the size, abandoning unread bits, and every successful decode
returns an output whose length is exactly the declared size. -/
theorem C8_invariants :
    (∀ (size offset j d : Nat) (out : List Nat), size ≤ d →
      copyRef size offset j d out = .ok (out, d)) ∧
    (∀ (size offset j d : Nat) (out out' : List Nat) (d' : Nat), d ≤ size →
      copyRef size offset j d out = .ok (out', d') → d' ≤ size) ∧
    (∀ (data : List Nat) (size i flags s d : Nat) (out : List Nat), size ≤ d →
      bitsLoop data size i flags s d out = .ok (s, d, out)) ∧
    (∀ (data : List Nat) (size i flags s d : Nat) (out : List Nat)
      (s' d' : Nat) (out' : List Nat), d ≤ size →
      bitsLoop data size i flags s d out = .ok (s', d', out') → d' ≤ size) ∧
    (∀ (data : List Nat) (size fuel s d : Nat) (out : List Nat),
      0 < fuel → size ≤ d → decodeLoop data size fuel s d out = some (.ok out)) ∧
    (∀ (data : List Nat) (off : Nat) (out : List Nat),
      decompress_lz77 data off = some (.ok out) →
      ∃ size, parseHeader data off = .ok size ∧ out.length = size) := by
  refine ⟨copyRef_stop,
    fun size offset j d out out' d' hd h => copyRef_d_le size offset j d out out' d' hd h,
    bitsLoop_stop,
    fun data size i flags s d out s' d' out' hd h =>
      bitsLoop_d_le data size i flags s d out s' d' out' hd h,
    decodeLoop_stop, ?_⟩
  intro data off out h
  unfold decompress_lz77 at h
  cases hp : parseHeader data off with
  | error e =>
    rw [hp] at h
    simp only [] at h
    simp at h
  | ok size =>
    rw [hp] at h
    simp only [] at h
    refine ⟨size, rfl, ?_⟩
    have hl := decodeLoop_ok_length data size (size + 1) (off + 4) 0
      (List.replicate size 0) out h
    simpa using hl

/-- Witness for C8: the stop and bound facts at concrete states of a
small decode, and the length of a decoded size-1 output. -/
theorem C8_invariants_witness :
    copyRef 2 1 5 2 [1, 2] = .ok ([1, 2], 2) ∧
    (3 : Nat) ≤ 3 ∧
    bitsLoop [0] 1 8 0 9 1 [0] = .ok (9, 1, [0]) ∧
    (1 : Nat) ≤ 1 ∧
    decodeLoop [0] 1 1 0 1 [5] = some (.ok [5]) ∧
    (∃ size, parseHeader [0x10, 0x01, 0x00, 0x00, 0x00, 0x41] 0 = .ok size ∧
      ([0x41] : List Nat).length = size) := by
  refine ⟨C8_invariants.1 2 1 5 2 [1, 2] (by decide),
    C8_invariants.2.1 3 1 2 1 [7, 0, 0] [7, 7, 7] 3 (by decide) (by rfl),
    C8_invariants.2.2.1 [0] 1 8 0 9 1 [0] (by decide),
    C8_invariants.2.2.2.1 [0x41] 1 8 0 0 0 [0] 1 1 [0x41] (by decide) (by rfl),
    C8_invariants.2.2.2.2.1 [0] 1 1 0 1 [5] (by decide) (by decide),
    C8_invariants.2.2.2.2.2 [0x10, 0x01, 0x00, 0x00, 0x00, 0x41] 0 [0x41] (by rfl)⟩

end AnalyzeLz77
